import Mathlib

/-!
# ScholarStream server — shallow embedding

A shallow embedding of the ScholarStream Express/MongoDB backend
(`src/index.js`).  Each MongoDB collection is modelled as a `List` of
documents; each route handler is a pure function from the relevant
collection(s) and request data to a response together with the updated
collection(s).  Fields that may be absent on a JavaScript object are
modelled as `Option`; JavaScript's falsy coalescing `a || b` on strings
is modelled explicitly (both `undefined` and `""` are falsy).
-/

namespace ScholarStream

/-- JavaScript `a || b` where `a` is a possibly-absent string and `b` a
possibly-absent string: `undefined` and `""` are falsy. -/
def jsOrOpt (a b : Option String) : Option String :=
  match a with
  | some s => if s = "" then b else some s
  | none => b

/-- JavaScript `a || b` where `a` is a possibly-absent string and `b` a
present string. -/
def jsOrStr (a : Option String) (b : String) : String :=
  match a with
  | some s => if s = "" then b else s
  | none => b

/-- JavaScript `s.toLowerCase()` on the ASCII role strings the code
compares: lower-case every character. -/
def lowerStr (s : String) : String := ⟨s.data.map Char.toLower⟩

/-- Does `hay` start with `needle`? (character-list level) -/
def leadsWith : List Char → List Char → Bool
  | [], _ => true
  | _ :: _, [] => false
  | a :: as, b :: bs => a == b && leadsWith as bs

/-- Does `needle` occur as a contiguous substring of `hay`? -/
def occursIn (needle hay : List Char) : Bool :=
  match hay with
  | [] => needle.isEmpty
  | _ :: rest => leadsWith needle hay || occursIn needle rest

/-- Case-insensitive substring test on a possibly-absent field, the model
of MongoDB `{$regex: search, $options: "i"}` for a plain-text search
string: an absent field never matches. -/
def ciContains (field : Option String) (search : String) : Bool :=
  match field with
  | none => false
  | some s => occursIn (lowerStr search).data (lowerStr s).data

/-! ## Documents -/

/-- A document of the `users` collection. -/
structure User where
  oid : Nat
  email : String
  name : Option String
  role : Option String
  createdAt : Nat
  deriving DecidableEq, Repr

/-- A document of the `scholarships` collection (fields the query
builder touches). -/
structure Scholarship where
  oid : Nat
  scholarshipName : Option String
  universityName : Option String
  degree : Option String
  scholarshipCategory : Option String
  applicationFees : Int
  scholarshipPostDate : Nat
  deriving DecidableEq, Repr

/-- A document of the `applications` collection. -/
structure Application where
  oid : Nat
  scholarshipId : String
  userEmail : String
  applicationStatus : String
  paymentStatus : String
  feedback : String
  applicationDate : Nat
  scholarshipName : Option String
  subjectCategory : Option String
  universityName : Option String
  deriving DecidableEq, Repr

/-- A document of the `reviews` collection.  `ratingPoint` and
`reviewComment` are written at creation; `rating` and `comment` are the
distinct fields written by the student review update. -/
structure Review where
  oid : Nat
  scholarshipId : Nat
  scholarshipName : Option String
  universityName : Option String
  userName : String
  userEmail : String
  ratingPoint : Int
  reviewComment : String
  reviewDate : Nat
  rating : Option Int
  comment : Option String
  deriving DecidableEq, Repr

/-- The decoded JWT payload (`req.decoded`): carries at least an email
claim, possibly a name. -/
structure Decoded where
  email : String
  name : Option String
  deriving DecidableEq, Repr

/-! ## Request bodies -/

/-- Body of `POST /applications` — the fields the handler reads or
overrides.  Client-supplied `userEmail`, `applicationStatus` and
`paymentStatus` are present here exactly so the handler can be seen to
discard them. -/
structure ApplicationBody where
  scholarshipId : String
  userEmail : Option String
  applicationStatus : Option String
  paymentStatus : Option String
  scholarshipName : Option String
  subjectCategory : Option String
  universityName : Option String
  deriving DecidableEq, Repr

/-- Body of `POST /users`: client may supply a role, which is discarded. -/
structure UserBody where
  email : String
  name : Option String
  role : Option String
  deriving DecidableEq, Repr

/-! ## Role gates (`verifyAdmin` / `verifyModerator`) -/

/-- Outcome of a role-gate middleware: either a short-circuited error
response or fall-through to the handler. -/
inductive GateOutcome where
  | forbidden (status : Nat) (message : String)
  | proceed
  deriving DecidableEq, Repr

/-- The lookup `usersCollection.findOne({ email })`. -/
def findUserByEmail (users : List User) (email : String) : Option User :=
  users.find? (fun u => u.email == email)

/-- The value `user?.role` for the user looked up by the verified email. -/
def resolvedRole (users : List User) (email : String) : Option String :=
  (findUserByEmail users email).bind (fun u => u.role)

/-- The `verifyAdmin` middleware: 403 unless the looked-up user's role
is exactly `"admin"`. -/
def verifyAdmin (users : List User) (email : String) : GateOutcome :=
  if resolvedRole users email ≠ some "admin" then
    .forbidden 403 "Admin only access"
  else .proceed

/-- The `verifyModerator` middleware: 403 unless the looked-up user's
role is exactly `"moderator"`. -/
def verifyModerator (users : List User) (email : String) : GateOutcome :=
  if resolvedRole users email ≠ some "moderator" then
    .forbidden 403 "Moderator only access"
  else .proceed

/-! ## Handlers -/

/-- A handler response: an error with an HTTP status and message, or a
success payload. -/
inductive HandlerResult (α : Type) where
  | err (status : Nat) (message : String)
  | ok (value : α)
  deriving DecidableEq, Repr

/-- The lookup `applicationsCollection.findOne({ _id: new ObjectId(id) })`. -/
def findApplicationById (apps : List Application) (id : Nat) : Option Application :=
  apps.find? (fun a => a.oid == id)

/-- The document built by the `POST /applications` handler: the spread
of the client body with `userEmail`, `applicationStatus`,
`paymentStatus`, `applicationDate` and `feedback` written after the
spread, so the handler's values win over any client-supplied ones. -/
def newApplication (body : ApplicationBody) (tokenEmail : String)
    (now freshId : Nat) : Application :=
  { oid := freshId
    scholarshipId := body.scholarshipId
    userEmail := tokenEmail
    applicationStatus := "pending"
    paymentStatus := "unpaid"
    applicationDate := now
    feedback := ""
    scholarshipName := body.scholarshipName
    subjectCategory := body.subjectCategory
    universityName := body.universityName }

/-- The `POST /applications` handler: duplicate check on
`(scholarshipId, token email)`, then insert. -/
def postApplications (apps : List Application) (body : ApplicationBody)
    (tokenEmail : String) (now freshId : Nat) :
    HandlerResult Nat × List Application :=
  match apps.find? (fun a =>
      a.scholarshipId == body.scholarshipId && a.userEmail == tokenEmail) with
  | some _ => (.err 400 "Already applied", apps)
  | none =>
      (.ok freshId, apps ++ [newApplication body tokenEmail now freshId])

/-- The review document built by the `POST /reviews` handler, from the
resolved application, the decoded token and the current time only. -/
def newReview (application : Application) (decoded : Decoded)
    (rating : Int) (comment : String) (now freshId : Nat) : Review :=
  { oid := freshId
    scholarshipId := application.oid
    scholarshipName := jsOrOpt application.scholarshipName application.subjectCategory
    universityName := application.universityName
    userName := jsOrStr decoded.name decoded.email
    userEmail := decoded.email
    ratingPoint := rating
    reviewComment := comment
    reviewDate := now
    rating := none
    comment := none }

/-- The `POST /reviews` handler: resolve the application, 404 if
absent, 403 unless its status is `"approved"`, else insert the
denormalized review. -/
def postReviews (apps : List Application) (reviews : List Review)
    (decoded : Decoded) (applicationId : Nat) (rating : Int)
    (comment : String) (now freshId : Nat) :
    HandlerResult Nat × List Review :=
  match findApplicationById apps applicationId with
  | none => (.err 404 "Application not found", reviews)
  | some application =>
      if application.applicationStatus ≠ "approved" then
        (.err 403 "Cannot review before approval", reviews)
      else
        (.ok freshId,
         reviews ++ [newReview application decoded rating comment now freshId])

/-- The call `deleteOne({_id})`: remove the first document with the given id. -/
def deleteOneApplication (apps : List Application) (id : Nat) : List Application :=
  match apps with
  | [] => []
  | a :: rest =>
      if a.oid == id then rest else a :: deleteOneApplication rest id

/-- The `DELETE /applications/:id` handler: 404 if absent, 403 unless
the caller owns it, 400 unless it is still pending, else delete it. -/
def deleteApplication (apps : List Application) (id : Nat)
    (tokenEmail : String) : HandlerResult Nat × List Application :=
  match findApplicationById apps id with
  | none => (.err 404 "Not found", apps)
  | some application =>
      if application.userEmail ≠ tokenEmail then
        (.err 403 "Forbidden", apps)
      else if application.applicationStatus ≠ "pending" then
        (.err 400 "Cannot delete completed application", apps)
      else
        (.ok 1, deleteOneApplication apps id)

/-- Response of `POST /users`: the handler answers with a bare message
when the email is already registered and with a success payload
otherwise.  The `userRecord` constructor exists only so the shape the
specification describes (answering with the stored record) is
expressible for comparison; the handler never produces it. -/
inductive UsersResponse where
  | message (m : String)
  | created (success : Bool) (insertedId : Nat)
  | userRecord (u : User)
  deriving DecidableEq, Repr

/-- The user document inserted by `POST /users`: the body with `role`
forced to `"student"` and a creation timestamp. -/
def newUserDoc (body : UserBody) (now freshId : Nat) : User :=
  { oid := freshId
    email := body.email
    name := body.name
    role := some "student"
    createdAt := now }

/-- The `POST /users` handler: look up by email; if present answer
`"User already exists"` and insert nothing, else insert the body with
`role` forced to `"student"`. -/
def postUsers (users : List User) (body : UserBody) (now freshId : Nat) :
    UsersResponse × List User :=
  match findUserByEmail users body.email with
  | some _ => (.message "User already exists", users)
  | none => (.created true freshId, users ++ [newUserDoc body now freshId])

/-- The call `findOneAndUpdate({_id}, {$set: {role}}, {returnDocument: "after"})`
for the role-change endpoint: update the first user with the given id
and return the updated document. -/
def findOneAndUpdateRole (users : List User) (userId : Nat)
    (newRole : String) : Option User × List User :=
  match users with
  | [] => (none, [])
  | u :: rest =>
      if u.oid == userId then
        let u' := { u with role := some newRole }
        (some u', u' :: rest)
      else
        let p := findOneAndUpdateRole rest userId newRole
        (p.1, u :: p.2)

/-- The `PATCH /dashboard/users/:id/role` handler body (after the admin
gate): reject roles outside the whitelist case-insensitively, else
persist the lower-cased role on the targeted user. -/
def patchUserRole (users : List User) (userId : Nat) (role : String) :
    HandlerResult User × List User :=
  if !(["student", "moderator", "admin"].contains (lowerStr role)) then
    (.err 400 "Invalid role", users)
  else
    match findOneAndUpdateRole users userId (lowerStr role) with
    | (none, users') => (.err 404 "User not found", users')
    | (some u, users') => (.ok u, users')

/-- The call `findOneAndUpdate({_id, userEmail}, {$set: {rating, comment}},
{returnDocument: "after"})` for the student review update: only the
caller's own review is touched, and only its `rating` and `comment`
fields are set. -/
def findOneAndUpdateReview (reviews : List Review) (id : Nat)
    (email : String) (rating : Option Int) (comment : Option String) :
    Option Review × List Review :=
  match reviews with
  | [] => (none, [])
  | r :: rest =>
      if r.oid == id && r.userEmail == email then
        let r' := { r with rating := rating, comment := comment }
        (some r', r' :: rest)
      else
        let p := findOneAndUpdateReview rest id email rating comment
        (p.1, r :: p.2)

/-- The `PATCH /reviews/:id` handler: 404 when no review matches
`(id, token email)`, else answer with the updated document. -/
def patchReview (reviews : List Review) (id : Nat) (email : String)
    (rating : Option Int) (comment : Option String) :
    HandlerResult Review × List Review :=
  match findOneAndUpdateReview reviews id email rating comment with
  | (none, reviews') => (.err 404 "Review not found or forbidden", reviews')
  | (some r, reviews') => (.ok r, reviews')

/-! ## Query builder (`GET /scholarships`) -/

/-- The filter built by the scholarships list handler: when `search` is
non-empty, a disjunction of case-insensitive substring matches over
name, university and degree; conjoined with an exact category match
when `category` is non-empty. -/
def matchesQuery (search category : String) (s : Scholarship) : Bool :=
  (search == ""
    || ciContains s.scholarshipName search
    || ciContains s.universityName search
    || ciContains s.degree search)
  && (category == "" || s.scholarshipCategory == some category)

/-- The three fixed sort orders; any other `sort` value leaves the
natural order. -/
def sortScholarships (sort : String) (l : List Scholarship) : List Scholarship :=
  if sort == "fee_asc" then
    l.insertionSort (fun a b => a.applicationFees ≤ b.applicationFees)
  else if sort == "fee_desc" then
    l.insertionSort (fun a b => b.applicationFees ≤ a.applicationFees)
  else if sort == "date_desc" then
    l.insertionSort (fun a b => b.scholarshipPostDate ≤ a.scholarshipPostDate)
  else l

/-- Response of the scholarships list: one page plus the total count of
documents matching the filter. -/
structure ScholarshipsPage where
  scholarships : List Scholarship
  total : Nat
  deriving DecidableEq, Repr

/-- The `GET /scholarships` handler: filter, sort, then
`skip((page-1)*limit).limit(limit)`, with `total` counted on the same
filter ignoring pagination. -/
def getScholarships (coll : List Scholarship) (search category sort : String)
    (page limit : Nat) : ScholarshipsPage :=
  let filtered := coll.filter (matchesQuery search category)
  let sorted := sortScholarships sort filtered
  { scholarships := (sorted.drop ((page - 1) * limit)).take limit
    total := filtered.length }

/-! ## Supporting lemmas -/

/-- Number of application documents with the given
`(scholarship reference, owning email)` pair. -/
def countPair (apps : List Application) (sid email : String) : Nat :=
  (apps.filter (fun a => a.scholarshipId == sid && a.userEmail == email)).length

theorem countPair_append (l₁ l₂ : List Application) (sid e : String) :
    countPair (l₁ ++ l₂) sid e = countPair l₁ sid e + countPair l₂ sid e := by
  simp [countPair, List.filter_append]

theorem countPair_eq_zero (apps : List Application) (sid e : String) :
    countPair apps sid e = 0 ↔
      ∀ a ∈ apps, ¬(a.scholarshipId = sid ∧ a.userEmail = e) := by
  simp [countPair, List.length_eq_zero, List.filter_eq_nil_iff]

theorem find?_pair_none_iff (apps : List Application) (sid e : String) :
    apps.find? (fun a => a.scholarshipId == sid && a.userEmail == e) = none ↔
      countPair apps sid e = 0 := by
  rw [List.find?_eq_none, countPair_eq_zero]
  simp

/-- Sample documents used by the concrete witnesses below. -/
def sampleBody : ApplicationBody :=
  { scholarshipId := "s1"
    userEmail := some "evil@x"
    applicationStatus := some "approved"
    paymentStatus := some "paid"
    scholarshipName := some "Stem Grant"
    subjectCategory := some "CS"
    universityName := some "MIT" }

def sampleApp : Application := newApplication sampleBody "a@b" 0 1

/-! ## C1 -/

/-- C1: submitting an application when one already exists for the same
`(scholarshipId, token email)` pair fails with 400 "Already applied"
and inserts nothing; otherwise exactly one document is inserted with
`applicationStatus = "pending"` and `paymentStatus = "unpaid"`
regardless of client-supplied values; in both cases at most one
application per pair exists afterward. -/
theorem postApplications_duplicate_guard
    (apps : List Application) (body : ApplicationBody) (email : String)
    (now fid : Nat) (hinv : ∀ sid e, countPair apps sid e ≤ 1) :
    (1 ≤ countPair apps body.scholarshipId email →
      postApplications apps body email now fid
        = (.err 400 "Already applied", apps))
    ∧ (countPair apps body.scholarshipId email = 0 →
      postApplications apps body email now fid
        = (.ok fid, apps ++ [newApplication body email now fid])
      ∧ (newApplication body email now fid).applicationStatus = "pending"
      ∧ (newApplication body email now fid).paymentStatus = "unpaid")
    ∧ (∀ sid e, countPair (postApplications apps body email now fid).2 sid e ≤ 1) := by
  unfold postApplications
  cases hfind : apps.find? (fun a =>
      a.scholarshipId == body.scholarshipId && a.userEmail == email) with
  | some a =>
      refine ⟨fun _ => rfl, fun hzero => ?_, fun sid e => hinv sid e⟩
      exact absurd ((find?_pair_none_iff apps _ _).mpr hzero) (by simp [hfind])
  | none =>
      have hzero : countPair apps body.scholarshipId email = 0 :=
        (find?_pair_none_iff apps _ _).mp hfind
      refine ⟨fun hge => by omega, fun _ => ⟨rfl, rfl, rfl⟩, fun sid e => ?_⟩
      rw [countPair_append]
      by_cases hmatch : body.scholarshipId = sid ∧ email = e
      · obtain ⟨hs, he⟩ := hmatch
        subst hs; subst he
        have h1 : countPair [newApplication body email now fid]
            body.scholarshipId email ≤ 1 := by
          simp [countPair, List.filter]
          split <;> simp
        omega
      · have h0 : countPair [newApplication body email now fid] sid e = 0 := by
          rw [countPair_eq_zero]
          intro a ha
          simp at ha
          subst ha
          simp only [newApplication]
          intro hcontra
          exact hmatch ⟨hcontra.1, hcontra.2⟩
        have := hinv sid e
        omega

/-- Concrete witness for C1: on the empty collection the submission
inserts one pending/unpaid document. -/
theorem postApplications_duplicate_guard_witness :
    postApplications [] sampleBody "a@b" 0 1
      = (.ok 1, [newApplication sampleBody "a@b" 0 1])
    ∧ (newApplication sampleBody "a@b" 0 1).applicationStatus = "pending"
    ∧ (newApplication sampleBody "a@b" 0 1).paymentStatus = "unpaid" := by
  have h := (postApplications_duplicate_guard [] sampleBody "a@b" 0 1
    (by intro sid e; simp [countPair])).2.1 (by simp [countPair])
  simpa using h

/-! ## C9 -/

/-- C9: every application document created by `POST /applications` is
owned by the caller's verified token email — the client-supplied
`userEmail` is overwritten — so every document in the collection after
the call either was already there or carries the token email. -/
theorem postApplications_owner_forced
    (apps : List Application) (body : ApplicationBody) (tokenEmail : String)
    (now fid : Nat) :
    (∀ clientEmail,
      (newApplication { body with userEmail := some clientEmail }
        tokenEmail now fid).userEmail = tokenEmail)
    ∧ ∀ a ∈ (postApplications apps body tokenEmail now fid).2,
        a ∈ apps ∨ a.userEmail = tokenEmail := by
  refine ⟨fun _ => rfl, fun a ha => ?_⟩
  unfold postApplications at ha
  cases hfind : apps.find? (fun x =>
      x.scholarshipId == body.scholarshipId && x.userEmail == tokenEmail) with
  | some x => rw [hfind] at ha; exact .inl ha
  | none =>
      rw [hfind] at ha
      simp only [List.mem_append, List.mem_singleton] at ha
      rcases ha with h | h
      · exact .inl h
      · exact .inr (by rw [h]; rfl)

/-- Concrete witness for C9: the inserted document carries the token
email, not the client-supplied one. -/
theorem postApplications_owner_forced_witness :
    sampleApp ∈ (postApplications [] sampleBody "a@b" 0 1).2
    ∧ (sampleApp ∈ ([] : List Application) ∨ sampleApp.userEmail = "a@b") := by
  have h := (postApplications_owner_forced [] sampleBody "a@b" 0 1).2
    sampleApp (by decide)
  exact ⟨by decide, h⟩

/-! ## C2 -/

/-- An approved application used by concrete witnesses. -/
def approvedApp : Application :=
  { oid := 9
    scholarshipId := "s1"
    userEmail := "a@b"
    applicationStatus := "approved"
    paymentStatus := "paid"
    feedback := "ok"
    applicationDate := 3
    scholarshipName := some "Stem Grant"
    subjectCategory := some "CS"
    universityName := some "MIT" }

/-- C2: creating a review fails with 404 when no application with the
given id exists, fails with the precondition error "Cannot review
before approval" when the resolved application's status is not
`"approved"`, and inserts exactly one review exactly when the status is
`"approved"`. -/
theorem postReviews_gate
    (apps : List Application) (reviews : List Review) (decoded : Decoded)
    (appId : Nat) (rating : Int) (comment : String) (now fid : Nat) :
    (findApplicationById apps appId = none →
      postReviews apps reviews decoded appId rating comment now fid
        = (.err 404 "Application not found", reviews))
    ∧ (∀ application, findApplicationById apps appId = some application →
        application.applicationStatus ≠ "approved" →
        postReviews apps reviews decoded appId rating comment now fid
          = (.err 403 "Cannot review before approval", reviews))
    ∧ (∀ application, findApplicationById apps appId = some application →
        application.applicationStatus = "approved" →
        postReviews apps reviews decoded appId rating comment now fid
          = (.ok fid,
             reviews ++ [newReview application decoded rating comment now fid])) := by
  unfold postReviews
  cases hfind : findApplicationById apps appId with
  | none => exact ⟨fun _ => rfl, fun a ha => by simp at ha, fun a ha => by simp at ha⟩
  | some application =>
      refine ⟨fun h => by simp at h, fun a ha hne => ?_, fun a ha happ => ?_⟩
      · obtain rfl : application = a := by simpa using ha
        simp [hne]
      · obtain rfl : application = a := by simpa using ha
        simp [happ]

/-- Concrete witness for C2: reviewing an approved application inserts
exactly one review. -/
theorem postReviews_gate_witness :
    postReviews [approvedApp] [] ⟨"a@b", none⟩ 9 5 "great" 4 2
      = (.ok 2, [newReview approvedApp ⟨"a@b", none⟩ 5 "great" 4 2]) := by
  have h := (postReviews_gate [approvedApp] [] ⟨"a@b", none⟩ 9 5 "great" 4 2).2.2
    approvedApp (by decide) (by decide)
  simpa using h

/-! ## C5 -/

/-- C5: the review inserted through the review gate takes its
denormalized fields from the resolved application document (with the
code's falsy fallback from `scholarshipName` to `subjectCategory`) and
from the verified identity, and is stamped with the current time; the
handler consults no scholarship document. -/
theorem postReviews_denormalizes_from_application
    (apps : List Application) (reviews : List Review) (decoded : Decoded)
    (appId : Nat) (rating : Int) (comment : String) (now fid : Nat)
    (application : Application)
    (hfind : findApplicationById apps appId = some application)
    (happ : application.applicationStatus = "approved") :
    ∃ r, postReviews apps reviews decoded appId rating comment now fid
        = (.ok fid, reviews ++ [r])
      ∧ r.scholarshipId = application.oid
      ∧ r.scholarshipName
          = jsOrOpt application.scholarshipName application.subjectCategory
      ∧ r.universityName = application.universityName
      ∧ r.userName = jsOrStr decoded.name decoded.email
      ∧ r.userEmail = decoded.email
      ∧ r.reviewDate = now := by
  refine ⟨newReview application decoded rating comment now fid, ?_, rfl, rfl, rfl, rfl, rfl, rfl⟩
  exact (postReviews_gate apps reviews decoded appId rating comment now fid).2.2
    application hfind happ

/-- Concrete witness for C5. -/
theorem postReviews_denormalizes_from_application_witness :
    ∃ r, postReviews [approvedApp] [] ⟨"a@b", some "Alice"⟩ 9 5 "great" 4 2
        = (.ok 2, [] ++ [r])
      ∧ r.scholarshipId = approvedApp.oid
      ∧ r.scholarshipName
          = jsOrOpt approvedApp.scholarshipName approvedApp.subjectCategory
      ∧ r.universityName = approvedApp.universityName
      ∧ r.userName = jsOrStr (some "Alice") "a@b"
      ∧ r.userEmail = "a@b"
      ∧ r.reviewDate = 4 :=
  postReviews_denormalizes_from_application [approvedApp] [] ⟨"a@b", some "Alice"⟩
    9 5 "great" 4 2 approvedApp (by decide) (by decide)

/-! ## C3 -/

theorem findApplicationById_split (apps : List Application) (id : Nat)
    (a : Application) (h : findApplicationById apps id = some a) :
    ∃ l₁ l₂, apps = l₁ ++ a :: l₂ ∧ (∀ b ∈ l₁, b.oid ≠ id)
      ∧ deleteOneApplication apps id = l₁ ++ l₂ := by
  induction apps with
  | nil => simp [findApplicationById] at h
  | cons x rest ih =>
      by_cases hx : x.oid = id
      · have : x = a := by
          have := List.find?_cons_of_pos (l := rest)
            (p := fun b => b.oid == id) (a := x) (by simp [hx])
          rw [findApplicationById, this] at h
          simpa using h
        subst this
        exact ⟨[], rest, by simp, by simp, by simp [deleteOneApplication, hx]⟩
      · have hrest : findApplicationById rest id = some a := by
          have := List.find?_cons_of_neg (l := rest)
            (p := fun b => b.oid == id) (a := x) (by simp [hx])
          rw [findApplicationById, this] at h
          exact h
        obtain ⟨l₁, l₂, heq, hnone, hdel⟩ := ih hrest
        exact ⟨x :: l₁, l₂, by simp [heq], by simpa [hx] using hnone,
          by simp [deleteOneApplication, hx, hdel]⟩

/-- C3: withdrawing an application fails with 404 when the id resolves
to no document, 403 when the document is not owned by the caller's
token email, 400 when its status is not `"pending"`, and otherwise
deletes exactly that one document, leaving every other document in
place. -/
theorem deleteApplication_spec
    (apps : List Application) (id : Nat) (email : String) :
    (findApplicationById apps id = none →
      deleteApplication apps id email = (.err 404 "Not found", apps))
    ∧ (∀ a, findApplicationById apps id = some a → a.userEmail ≠ email →
      deleteApplication apps id email = (.err 403 "Forbidden", apps))
    ∧ (∀ a, findApplicationById apps id = some a → a.userEmail = email →
      a.applicationStatus ≠ "pending" →
      deleteApplication apps id email
        = (.err 400 "Cannot delete completed application", apps))
    ∧ (∀ a, findApplicationById apps id = some a → a.userEmail = email →
      a.applicationStatus = "pending" →
      ∃ l₁ l₂, apps = l₁ ++ a :: l₂ ∧ (∀ b ∈ l₁, b.oid ≠ id)
        ∧ deleteApplication apps id email = (.ok 1, l₁ ++ l₂)) := by
  unfold deleteApplication
  cases hfind : findApplicationById apps id with
  | none =>
      exact ⟨fun _ => rfl, fun a ha => by simp at ha, fun a ha => by simp at ha,
        fun a ha => by simp at ha⟩
  | some application =>
      refine ⟨fun h => by simp at h, fun a ha hne => ?_, fun a ha he hst => ?_,
        fun a ha he hst => ?_⟩
      · obtain rfl : application = a := by simpa using ha
        simp [hne]
      · obtain rfl : application = a := by simpa using ha
        simp [he, hst]
      · obtain rfl : application = a := by simpa using ha
        obtain ⟨l₁, l₂, heq, hnone, hdel⟩ :=
          findApplicationById_split apps id application hfind
        exact ⟨l₁, l₂, heq, hnone, by simp [he, hst, hdel]⟩

/-- A pending application owned by `a@b`, used by witnesses. -/
def pendingApp : Application :=
  { oid := 4
    scholarshipId := "s2"
    userEmail := "a@b"
    applicationStatus := "pending"
    paymentStatus := "unpaid"
    feedback := ""
    applicationDate := 1
    scholarshipName := some "Arts Fund"
    subjectCategory := some "Arts"
    universityName := some "Yale" }

/-- Concrete witness for C3: deleting an owned pending application
removes exactly that document. -/
theorem deleteApplication_spec_witness :
    ∃ l₁ l₂, [approvedApp, pendingApp] = l₁ ++ pendingApp :: l₂
      ∧ (∀ b ∈ l₁, b.oid ≠ 4)
      ∧ deleteApplication [approvedApp, pendingApp] 4 "a@b" = (.ok 1, l₁ ++ l₂) :=
  (deleteApplication_spec [approvedApp, pendingApp] 4 "a@b").2.2.2
    pendingApp (by decide) (by decide) (by decide)

/-! ## C4 -/

/-- C4: the role gates are disjoint and non-hierarchical — the admin
gate returns 403 for every resolved role other than exactly `"admin"`
(including `"moderator"` and callers with no user record), and the
moderator gate returns 403 for every resolved role other than exactly
`"moderator"` (including `"admin"`). -/
theorem roleGates_disjoint (users : List User) (email : String) :
    (resolvedRole users email ≠ some "admin" →
      verifyAdmin users email = .forbidden 403 "Admin only access")
    ∧ (resolvedRole users email ≠ some "moderator" →
      verifyModerator users email = .forbidden 403 "Moderator only access")
    ∧ (resolvedRole users email = some "moderator" →
      verifyAdmin users email = .forbidden 403 "Admin only access")
    ∧ (resolvedRole users email = some "admin" →
      verifyModerator users email = .forbidden 403 "Moderator only access")
    ∧ (findUserByEmail users email = none →
      verifyAdmin users email = .forbidden 403 "Admin only access"
      ∧ verifyModerator users email = .forbidden 403 "Moderator only access") := by
  refine ⟨fun h => by simp [verifyAdmin, h], fun h => by simp [verifyModerator, h],
    fun h => by simp [verifyAdmin, h], fun h => by simp [verifyModerator, h],
    fun h => ?_⟩
  have hr : resolvedRole users email = none := by simp [resolvedRole, h]
  exact ⟨by simp [verifyAdmin, hr], by simp [verifyModerator, hr]⟩

/-- A moderator and an admin user record, used by witnesses. -/
def modUser : User :=
  { oid := 2, email := "m@x", name := some "Mod", role := some "moderator", createdAt := 0 }

def adminUser : User :=
  { oid := 3, email := "ad@x", name := some "Ad", role := some "admin", createdAt := 0 }

/-- Concrete witness for C4: a moderator is rejected by the admin gate,
an admin by the moderator gate, and an unknown email by both. -/
theorem roleGates_disjoint_witness :
    verifyAdmin [modUser, adminUser] "m@x" = .forbidden 403 "Admin only access"
    ∧ verifyModerator [modUser, adminUser] "ad@x"
        = .forbidden 403 "Moderator only access"
    ∧ verifyAdmin [modUser, adminUser] "ghost@x" = .forbidden 403 "Admin only access"
    ∧ verifyModerator [modUser, adminUser] "ghost@x"
        = .forbidden 403 "Moderator only access" := by
  have h1 := (roleGates_disjoint [modUser, adminUser] "m@x").2.2.1 (by decide)
  have h2 := (roleGates_disjoint [modUser, adminUser] "ad@x").2.2.2.1 (by decide)
  have h3 := (roleGates_disjoint [modUser, adminUser] "ghost@x").2.2.2.2 (by decide)
  exact ⟨h1, h2, h3.1, h3.2⟩

/-! ## C6 -/

theorem leadsWith_iff (n h : List Char) :
    leadsWith n h = true ↔ ∃ t, h = n ++ t := by
  induction n generalizing h with
  | nil => simp [leadsWith]
  | cons a as ih =>
      cases h with
      | nil => simp [leadsWith]
      | cons b bs =>
          simp only [leadsWith, Bool.and_eq_true, beq_iff_eq, ih, List.cons_append,
            List.cons.injEq]
          constructor
          · rintro ⟨rfl, t, rfl⟩; exact ⟨t, rfl, rfl⟩
          · rintro ⟨t, rfl, rfl⟩; exact ⟨rfl, t, rfl⟩

theorem occursIn_iff (n h : List Char) :
    occursIn n h = true ↔ ∃ l₁ l₂, h = l₁ ++ n ++ l₂ := by
  induction h with
  | nil =>
      simp only [occursIn, List.isEmpty_iff]
      constructor
      · rintro rfl; exact ⟨[], [], rfl⟩
      · rintro ⟨l₁, l₂, heq⟩
        have hlen := congrArg List.length heq
        simp only [List.length_nil, List.length_append] at hlen
        exact List.eq_nil_of_length_eq_zero (by omega)
  | cons c rest ih =>
      simp only [occursIn, Bool.or_eq_true, leadsWith_iff, ih]
      constructor
      · rintro (⟨t, ht⟩ | ⟨l₁, l₂, hl⟩)
        · exact ⟨[], t, by simpa using ht⟩
        · exact ⟨c :: l₁, l₂, by simp [hl]⟩
      · rintro ⟨l₁, l₂, heq⟩
        cases l₁ with
        | nil => exact .inl ⟨l₂, by simpa using heq⟩
        | cons x l₁ =>
            simp only [List.cons_append, List.cons.injEq] at heq
            exact .inr ⟨l₁, l₂, heq.2⟩

/-- The mathematical reading of one case-insensitive substring clause:
the field is present and its lower-cased text contains the lower-cased
search text as a contiguous substring. -/
def CiSubstrMatch (field : Option String) (search : String) : Prop :=
  ∃ s l₁ l₂, field = some s
    ∧ (lowerStr s).data = l₁ ++ (lowerStr search).data ++ l₂

theorem ciContains_iff (field : Option String) (search : String) :
    ciContains field search = true ↔ CiSubstrMatch field search := by
  cases field with
  | none => simp [ciContains, CiSubstrMatch]
  | some s =>
      simp only [ciContains, occursIn_iff, CiSubstrMatch, Option.some.injEq]
      constructor
      · rintro ⟨l₁, l₂, heq⟩; exact ⟨s, l₁, l₂, rfl, heq⟩
      · rintro ⟨s', l₁, l₂, rfl, heq⟩; exact ⟨l₁, l₂, heq⟩

theorem mem_sortScholarships (sort : String) (l : List Scholarship)
    (s : Scholarship) : s ∈ sortScholarships sort l ↔ s ∈ l := by
  unfold sortScholarships
  split
  · exact List.mem_insertionSort _
  · split
    · exact List.mem_insertionSort _
    · split
      · exact List.mem_insertionSort _
      · exact Iff.rfl

/-- C6: the scholarships list returns at most `limit` documents, taken
after skipping `(page-1)*limit` of the sorted filtered documents; its
`total` is the count of all documents matching the filter ignoring
pagination; every returned document belongs to the collection and
matches the filter; and for non-empty `search` and `category` the
filter is exactly the disjunction of case-insensitive substring matches
over name, university and degree conjoined with an exact category
match. -/
theorem getScholarships_spec (coll : List Scholarship)
    (search category sort : String) (page limit : Nat) :
    ((getScholarships coll search category sort page limit).scholarships.length
      ≤ limit)
    ∧ ((getScholarships coll search category sort page limit).scholarships
      = ((sortScholarships sort
          (coll.filter (matchesQuery search category))).drop
            ((page - 1) * limit)).take limit)
    ∧ ((getScholarships coll search category sort page limit).total
      = (coll.filter (matchesQuery search category)).length)
    ∧ (∀ s ∈ (getScholarships coll search category sort page limit).scholarships,
        s ∈ coll ∧ matchesQuery search category s = true)
    ∧ (∀ s : Scholarship, search ≠ "" → category ≠ "" →
        (matchesQuery search category s = true ↔
          ((CiSubstrMatch s.scholarshipName search
            ∨ CiSubstrMatch s.universityName search
            ∨ CiSubstrMatch s.degree search)
          ∧ s.scholarshipCategory = some category))) := by
  refine ⟨List.length_take_le _ _, rfl, rfl, fun s hs => ?_, fun s hs hc => ?_⟩
  · have h1 : s ∈ sortScholarships sort
        (coll.filter (matchesQuery search category)) :=
      List.mem_of_mem_drop (List.mem_of_mem_take hs)
    have h2 : s ∈ coll.filter (matchesQuery search category) :=
      (mem_sortScholarships _ _ s).mp h1
    have h3 := List.mem_filter.mp h2
    exact ⟨h3.1, h3.2⟩
  · have h1 : (search == "") = false := by simpa using hs
    have h2 : (category == "") = false := by simpa using hc
    simp only [matchesQuery, h1, h2, Bool.false_or, Bool.and_eq_true,
      Bool.or_eq_true, ciContains_iff, beq_iff_eq]
    tauto

/-- A scholarship matching search `"mit"` and category `"CS"`, used by
the C6 witness. -/
def sampleSch : Scholarship :=
  { oid := 1
    scholarshipName := some "Stem Grant"
    universityName := some "MIT Boston"
    degree := some "Masters"
    scholarshipCategory := some "CS"
    applicationFees := 50
    scholarshipPostDate := 10 }

/-- Concrete witness for C6. -/
theorem getScholarships_spec_witness :
    (getScholarships [sampleSch] "mit" "CS" "" 1 6).scholarships.length ≤ 6
    ∧ (matchesQuery "mit" "CS" sampleSch = true ↔
        ((CiSubstrMatch sampleSch.scholarshipName "mit"
          ∨ CiSubstrMatch sampleSch.universityName "mit"
          ∨ CiSubstrMatch sampleSch.degree "mit")
        ∧ sampleSch.scholarshipCategory = some "CS")) := by
  have h := getScholarships_spec [sampleSch] "mit" "CS" "" 1 6
  exact ⟨h.1, h.2.2.2.2 sampleSch (by decide) (by decide)⟩

/-! ## C7 -/

theorem findOneAndUpdateRole_found (users : List User) (uid : Nat) (nr : String)
    (u : User) (hu : u ∈ users) (hid : u.oid = uid) :
    ∃ u', (findOneAndUpdateRole users uid nr).1 = some u'
      ∧ u'.oid = uid ∧ u'.role = some nr
      ∧ u' ∈ (findOneAndUpdateRole users uid nr).2 := by
  induction users with
  | nil => cases hu
  | cons x rest ih =>
      by_cases hx : x.oid = uid
      · exact ⟨{ x with role := some nr }, by simp [findOneAndUpdateRole, hx],
          by simpa using hx, rfl, by simp [findOneAndUpdateRole, hx]⟩
      · have hu' : u ∈ rest := by
          rcases List.mem_cons.mp hu with rfl | h
          · exact absurd hid hx
          · exact h
        obtain ⟨u', h1, h2, h3, h4⟩ := ih hu'
        refine ⟨u', ?_, h2, h3, ?_⟩
        · simpa [findOneAndUpdateRole, hx] using h1
        · simp [findOneAndUpdateRole, hx]
          exact .inr h4

/-- C7: the role-change handler rejects with 400 every role whose
lower-cased form is outside `{student, moderator, admin}`, and for an
accepted role persists the lower-cased form on the targeted user
record. -/
theorem patchUserRole_spec (users : List User) (uid : Nat) (role : String) :
    (lowerStr role ∉ (["student", "moderator", "admin"] : List String) →
      patchUserRole users uid role = (.err 400 "Invalid role", users))
    ∧ (lowerStr role ∈ (["student", "moderator", "admin"] : List String) →
      ∀ u ∈ users, u.oid = uid →
      ∃ u', (patchUserRole users uid role).1 = .ok u'
        ∧ u'.oid = uid ∧ u'.role = some (lowerStr role)
        ∧ u' ∈ (patchUserRole users uid role).2) := by
  constructor
  · intro hnot
    have hc : (["student", "moderator", "admin"].contains (lowerStr role)) = false := by
      rw [Bool.eq_false_iff]
      intro hcon
      exact hnot (List.elem_iff.mp hcon)
    unfold patchUserRole
    rw [hc]
    simp
  · intro hin u hu hid
    have hc : (["student", "moderator", "admin"].contains (lowerStr role)) = true :=
      List.elem_iff.mpr hin
    obtain ⟨u', h1, h2, h3, h4⟩ :=
      findOneAndUpdateRole_found users uid (lowerStr role) u hu hid
    rcases hq : findOneAndUpdateRole users uid (lowerStr role) with ⟨o, users'⟩
    rw [hq] at h1 h4
    simp only at h1 h4
    subst h1
    refine ⟨u', ?_, h2, h3, ?_⟩
    · unfold patchUserRole
      rw [hc, hq]
      simp
    · unfold patchUserRole
      rw [hc, hq]
      simpa using h4

/-- Concrete witness for C7: `"MODERATOR"` is accepted and persisted in
lower case on the targeted record. -/
theorem patchUserRole_spec_witness :
    ∃ u', (patchUserRole [adminUser] 3 "MODERATOR").1 = .ok u'
      ∧ u'.oid = 3 ∧ u'.role = some (lowerStr "MODERATOR")
      ∧ u' ∈ (patchUserRole [adminUser] 3 "MODERATOR").2 :=
  (patchUserRole_spec [adminUser] 3 "MODERATOR").2 (by decide)
    adminUser (by decide) (by decide)

/-! ## C8 -/

/-- Number of user documents with the given email. -/
def countEmail (users : List User) (e : String) : Nat :=
  (users.filter (fun u => u.email == e)).length

theorem countEmail_append (l₁ l₂ : List User) (e : String) :
    countEmail (l₁ ++ l₂) e = countEmail l₁ e + countEmail l₂ e := by
  simp [countEmail, List.filter_append]

theorem findUserByEmail_none_iff (users : List User) (e : String) :
    findUserByEmail users e = none ↔ countEmail users e = 0 := by
  simp [findUserByEmail, List.find?_eq_none, countEmail, List.length_eq_zero,
    List.filter_eq_nil_iff]

def sampleUser : User :=
  { oid := 1, email := "a@b", name := some "A", role := some "student", createdAt := 0 }

/-- The body of a second registration for an already-registered email,
carrying a client-supplied role. -/
def reregBody : UserBody := { email := "a@b", name := some "A", role := some "admin" }

/-- Counterexample for C8 as stated: re-registering an existing email
answers the bare message `"User already exists"`, not the existing
record. -/
theorem postUsers_rereg_message_not_record :
    (postUsers [sampleUser] reregBody 5 7).1 = .message "User already exists"
    ∧ (postUsers [sampleUser] reregBody 5 7).1 ≠ .userRecord sampleUser
    ∧ (postUsers [sampleUser] reregBody 5 7).2 = [sampleUser] := by
  decide

/-- C8 (amended): registration is idempotent on the stored data —
re-registering an existing email inserts nothing and answers an
already-exists message (not the existing record); a first registration
inserts exactly one user with role forced to `"student"`; at most one
user per email exists afterward. -/
theorem postUsers_idempotent_create (users : List User) (body : UserBody)
    (now fid : Nat) (hinv : ∀ e, countEmail users e ≤ 1) :
    (∀ u, findUserByEmail users body.email = some u →
      postUsers users body now fid = (.message "User already exists", users))
    ∧ (findUserByEmail users body.email = none →
      postUsers users body now fid
        = (.created true fid, users ++ [newUserDoc body now fid])
      ∧ (newUserDoc body now fid).role = some "student"
      ∧ (newUserDoc body now fid).email = body.email)
    ∧ (∀ e, countEmail (postUsers users body now fid).2 e ≤ 1) := by
  unfold postUsers
  cases hfind : findUserByEmail users body.email with
  | some u =>
      exact ⟨fun _ _ => rfl, fun h => by simp at h, fun e => hinv e⟩
  | none =>
      have hzero : countEmail users body.email = 0 :=
        (findUserByEmail_none_iff users body.email).mp hfind
      refine ⟨fun u hu => by simp at hu, fun _ => ⟨rfl, rfl, rfl⟩, fun e => ?_⟩
      rw [countEmail_append]
      by_cases he : body.email = e
      · subst he
        have h1 : countEmail [newUserDoc body now fid] body.email ≤ 1 := by
          simp [countEmail, newUserDoc, List.filter]
        omega
      · have hbe : (body.email == e) = false := by simpa using he
        have h0 : countEmail [newUserDoc body now fid] e = 0 := by
          simp [countEmail, newUserDoc, List.filter, hbe]
        have := hinv e
        omega

/-- Concrete witness for C8 (amended): first registration inserts one
student-role user. -/
theorem postUsers_idempotent_create_witness :
    postUsers [] reregBody 5 7
      = (.created true 7, [newUserDoc reregBody 5 7])
    ∧ (newUserDoc reregBody 5 7).role = some "student"
    ∧ (newUserDoc reregBody 5 7).email = "a@b" := by
  have h := (postUsers_idempotent_create [] reregBody 5 7
    (by intro e; simp [countEmail])).2.1 (by simp [findUserByEmail])
  simpa [reregBody] using h

/-! ## C10 -/

/-- One student review-update request. -/
structure PatchOp where
  id : Nat
  email : String
  rating : Option Int
  comment : Option String
  deriving DecidableEq, Repr

/-- A sequence of student review updates applied to the collection. -/
def patchMany (ops : List PatchOp) (reviews : List Review) : List Review :=
  ops.foldl (fun rs op => (patchReview rs op.id op.email op.rating op.comment).2) reviews

/-- Every field of a review except the update-written `rating` and
`comment`. -/
def frameView (r : Review) :
    Nat × Nat × Option String × Option String × String × String × Int × String × Nat :=
  (r.oid, r.scholarshipId, r.scholarshipName, r.universityName, r.userName,
   r.userEmail, r.ratingPoint, r.reviewComment, r.reviewDate)

/-- The two fields written at review creation. -/
def creationFields (r : Review) : Int × String := (r.ratingPoint, r.reviewComment)

theorem findOneAndUpdateReview_map {β : Type} (f : Review → β)
    (hf : ∀ r ra co, f { r with rating := ra, comment := co } = f r)
    (rs : List Review) (id : Nat) (email : String) (ra : Option Int)
    (co : Option String) :
    ((findOneAndUpdateReview rs id email ra co).2).map f = rs.map f := by
  induction rs with
  | nil => rfl
  | cons r rest ih =>
      cases h : (r.oid == id && r.userEmail == email) with
      | true => simp [findOneAndUpdateReview, h, hf]
      | false => simp [findOneAndUpdateReview, h, ih]

theorem patchReview_collection (rs : List Review) (id : Nat) (email : String)
    (ra : Option Int) (co : Option String) :
    (patchReview rs id email ra co).2 = (findOneAndUpdateReview rs id email ra co).2 := by
  unfold patchReview
  rcases findOneAndUpdateReview rs id email ra co with ⟨o, l⟩
  cases o <;> rfl

theorem patchMany_map {β : Type} (f : Review → β)
    (hf : ∀ r ra co, f { r with rating := ra, comment := co } = f r)
    (ops : List PatchOp) (rs : List Review) :
    (patchMany ops rs).map f = rs.map f := by
  induction ops generalizing rs with
  | nil => rfl
  | cons op rest ih =>
      have hstep : patchMany (op :: rest) rs
          = patchMany rest ((patchReview rs op.id op.email op.rating op.comment).2) :=
        rfl
      rw [hstep, ih, patchReview_collection, findOneAndUpdateReview_map f hf]

/-- C10: a student review update sets only the `rating` and `comment`
fields — every other field of every document, in particular the
creation-written `ratingPoint` and `reviewComment`, is unchanged by any
number of updates; a review created by the review gate keeps its
`ratingPoint` and `reviewComment` values through any sequence of
updates. -/
theorem patchReview_frame_effect (ops : List PatchOp) (reviews : List Review) :
    (patchMany ops reviews).map frameView = reviews.map frameView
    ∧ ∀ (application : Application) (decoded : Decoded) (rating : Int)
        (comment : String) (now fid : Nat),
      (patchMany ops
          (reviews ++ [newReview application decoded rating comment now fid])).map
          creationFields
        = reviews.map creationFields ++ [(rating, comment)] := by
  constructor
  · exact patchMany_map frameView (fun r ra co => rfl) ops reviews
  · intro application decoded rating comment now fid
    rw [patchMany_map creationFields (fun r ra co => rfl) ops]
    simp [creationFields, newReview]

end ScholarStream
